import Mathlib

/-!
Verification development for the arithmos library: conversion of Arabic
numerals to Classical Attic Greek numerals.

The repository holds two builds of the same crate:
  * src/src/lib.rs  — standard range, MAX = 9 999, 36-entry symbol table;
  * src/rust/src/lib.rs — extended range, MAX = 999 999, 54-entry table.
They are embedded below as namespaces ArithmosStd and ArithmosExt.

Strings are modelled as lists of Unicode code points (Nat), matching a Rust
String as a sequence of chars.  The repository files are stored
double-encoded (their original UTF-8 was read as Mac Roman and re-saved as
UTF-8); the tables below use the losslessly decoded original code points,
e.g. U+0375 GREEK LOWER NUMERAL SIGN for the thousands prefix, U+03A1 for
capital Rho, U+1018A for the Greek zero sign, and U+0027 for the trailing
apostrophe marker.  Each entry is annotated with the glyphs it denotes.
-/

/-- One row of the static symbol table: the Rust struct Arabic2GreekStruct,
with the two glyph strings as code-point lists. -/
structure Arabic2GreekStruct where
  arabic : Nat
  u_attic : List Nat
  l_attic : List Nat
deriving DecidableEq, Repr

/-- The trailing numeral marker pushed at the end of every rendering:
the string containing the single apostrophe, U+0027. -/
def TERMINATOR : List Nat := [0x27]

/-- The glyph pushed when the value is zero: U+1018A GREEK ZERO SIGN. -/
def ZERO_SIGN : List Nat := [0x1018A]

/-- The Rust tuple struct GreekNumeral(u32): a plain wrapper around the
stored integer.  Both crates declare the identical type; equality,
ordering and hashing are structural on the wrapped value. -/
structure GreekNumeral where
  val : Nat
deriving DecidableEq, Repr

/-- Return the stored value, as in GreekNumeral::as_u32. -/
def GreekNumeral.as_u32 (x : GreekNumeral) : Nat := x.val

/-- The single error type OutOfRangeError (a unit struct). -/
structure OutOfRangeError where
deriving DecidableEq, Repr

/-- The largest value of Rust u32, used by the narrowing conversions
u32::try_from in the TryFrom implementations. -/
def u32MAX : Nat := 4294967295

/-- Rust u32::try_from on an unsigned source (u64, u128, usize): succeeds
iff the value fits in 32 bits. -/
def u32_try_from_nat (v : Nat) : Option Nat :=
  if v ≤ u32MAX then some v else none

/-- Rust u32::try_from on a signed source (i8..i128): succeeds iff the
value is non-negative and fits in 32 bits. -/
def u32_try_from_int (v : Int) : Option Nat :=
  if 0 ≤ v ∧ v ≤ (u32MAX : Int) then some v.toNat else none

/-- Fuel-bounded embedding of the inner loop
while n >= w: n -= w; out.push_str(g)
of to_uppercase and to_lowercase.  The result is the emitted text and the
final remaining value.  Every weight in the tables is positive, so the
loop runs at most n times and fuel n suffices; the extra 0 < w guard only
rules out the weight-zero case, on which the Rust loop would not
terminate (no such weight occurs in either table). -/
def emitLoopF (g : List Nat) (w : Nat) : Nat → Nat → List Nat × Nat
  | 0, n => ([], n)
  | fuel + 1, n =>
    if 0 < w ∧ w ≤ n then
      let p := emitLoopF g w fuel (n - w)
      (g ++ p.1, p.2)
    else ([], n)

/-- The inner while loop, started with adequate fuel. -/
def emitLoop (w : Nat) (g : List Nat) (n : Nat) : List Nat × Nat :=
  emitLoopF g w n n

/-- The same loop, recording only how many times the body ran. -/
def emitCountF (w : Nat) : Nat → Nat → Nat × Nat
  | 0, n => (0, n)
  | fuel + 1, n =>
    if 0 < w ∧ w ≤ n then
      let p := emitCountF w fuel (n - w)
      (p.1 + 1, p.2)
    else (0, n)

/-- Iteration count and final remainder of the inner while loop. -/
def emitCount (w : Nat) (n : Nat) : Nat × Nat :=
  emitCountF w n n

/-- The outer for loop of to_uppercase / to_lowercase: walk the table in
order, run the inner while loop at each entry on the current remainder,
and concatenate everything that was emitted.  The glyph of each entry is
chosen by pick (u_attic or l_attic). -/
def runTable (pick : Arabic2GreekStruct → List Nat) :
    List Arabic2GreekStruct → Nat → List Nat × Nat
  | [], n => ([], n)
  | a :: rest, n =>
    let p := emitLoop a.arabic (pick a) n
    let q := runTable pick rest p.2
    (p.1 ++ q.1, q.2)

/-- The sequence of table entries the walk emits, one occurrence per
execution of the inner loop body, in emission order. -/
def emissions : List Arabic2GreekStruct → Nat → List Arabic2GreekStruct × Nat
  | [], n => ([], n)
  | a :: rest, n =>
    let p := emitCount a.arabic n
    let q := emissions rest p.2
    (List.replicate p.1 a ++ q.1, q.2)

/-- Per-entry iteration counts of the walk, in table order. -/
def counts : List Arabic2GreekStruct → Nat → List Nat × Nat
  | [], n => ([], n)
  | a :: rest, n =>
    let p := emitCount a.arabic n
    let q := counts rest p.2
    (p.1 :: q.1, q.2)

/-- The walk described by the spec, entry by entry, with the while loop
written in closed form: at weight w the loop body runs n / w times and
leaves remainder n % w. -/
def specWalk (pick : Arabic2GreekStruct → List Nat) :
    List Arabic2GreekStruct → Nat → List Nat
  | [], _ => []
  | a :: rest, n =>
    (List.replicate (n / a.arabic) (pick a)).flatten ++ specWalk pick rest (n % a.arabic)

/-- Closed form of the inner while loop (for the positive weights of the
tables): it emits the glyph n / w times and leaves n % w. -/
theorem emitLoopF_eq (g : List Nat) (w : Nat) (hw : 0 < w) :
    ∀ fuel n, n ≤ fuel →
      emitLoopF g w fuel n = ((List.replicate (n / w) g).flatten, n % w) := by
  intro fuel
  induction fuel with
  | zero =>
    intro n hn
    have hn0 : n = 0 := Nat.le_zero.mp hn
    subst hn0
    simp [emitLoopF]
  | succ fuel ih =>
    intro n hn
    by_cases hwn : w ≤ n
    · have ihn := ih (n - w) (by omega)
      rw [emitLoopF]
      simp only [hw, hwn, and_self, if_true, ihn]
      rw [Nat.div_eq_sub_div hw hwn, Nat.mod_eq_sub_mod hwn]
      simp [List.replicate_succ]
    · rw [emitLoopF]
      have h1 : n / w = 0 := Nat.div_eq_of_lt (by omega)
      have h2 : n % w = n := Nat.mod_eq_of_lt (by omega)
      simp [hwn, h1, h2]

/-- Closed form of emitLoop. -/
theorem emitLoop_eq (w : Nat) (hw : 0 < w) (g : List Nat) (n : Nat) :
    emitLoop w g n = ((List.replicate (n / w) g).flatten, n % w) :=
  emitLoopF_eq g w hw n n le_rfl

/-- Closed form of the counting loop. -/
theorem emitCountF_eq (w : Nat) (hw : 0 < w) :
    ∀ fuel n, n ≤ fuel → emitCountF w fuel n = (n / w, n % w) := by
  intro fuel
  induction fuel with
  | zero =>
    intro n hn
    have hn0 : n = 0 := Nat.le_zero.mp hn
    subst hn0
    simp [emitCountF]
  | succ fuel ih =>
    intro n hn
    by_cases hwn : w ≤ n
    · have ihn := ih (n - w) (by omega)
      rw [emitCountF]
      simp only [hw, hwn, and_self, if_true, ihn]
      rw [Nat.div_eq_sub_div hw hwn, Nat.mod_eq_sub_mod hwn]
    · rw [emitCountF]
      have h1 : n / w = 0 := Nat.div_eq_of_lt (by omega)
      have h2 : n % w = n := Nat.mod_eq_of_lt (by omega)
      simp [hwn, h1, h2]

/-- Closed form of emitCount. -/
theorem emitCount_eq (w : Nat) (hw : 0 < w) (n : Nat) :
    emitCount w n = (n / w, n % w) :=
  emitCountF_eq w hw n n le_rfl

/-- All weights of a table are positive. -/
def posWeights (t : List Arabic2GreekStruct) : Prop :=
  ∀ a ∈ t, 0 < a.arabic

/-- On a table of positive weights, the walk emits exactly the glyphs of
its emission sequence, in order, and the remainder does not depend on the
chosen case. -/
theorem runTable_eq_emissions (pick : Arabic2GreekStruct → List Nat) :
    ∀ (t : List Arabic2GreekStruct), posWeights t → ∀ n,
      runTable pick t n =
        ((((emissions t n).1.map pick).flatten), (emissions t n).2) := by
  intro t
  induction t with
  | nil => intro _ n; simp [runTable, emissions]
  | cons a rest ih =>
    intro hpos n
    have ha : 0 < a.arabic := hpos a (by simp)
    have hrest : posWeights rest := fun b hb => hpos b (by simp [hb])
    rw [runTable, emissions]
    simp only [emitLoop_eq a.arabic ha, emitCount_eq a.arabic ha]
    rw [ih hrest (n % a.arabic)]
    simp [List.map_replicate]

/-- The emission sequence and the per-entry counts describe the same walk:
each entry occurs exactly its count many times, consecutively. -/
theorem emissions_eq_counts :
    ∀ (t : List Arabic2GreekStruct) n,
      (emissions t n).1.length = (counts t n).1.sum ∧
      (emissions t n).2 = (counts t n).2 := by
  intro t
  induction t with
  | nil => intro n; simp [emissions, counts]
  | cons a rest ih =>
    intro n
    rw [emissions, counts]
    simp only [List.length_append, List.length_replicate, List.sum_cons]
    exact ⟨by rw [(ih _).1], (ih _).2⟩

/-- On positive weights, the walk realizes the closed-form walk of the
spec: division gives the count and the modulus the remainder at each
entry. -/
theorem runTable_eq_specWalk (pick : Arabic2GreekStruct → List Nat) :
    ∀ (t : List Arabic2GreekStruct), posWeights t → ∀ n,
      (runTable pick t n).1 = specWalk pick t n := by
  intro t
  induction t with
  | nil => intro _ n; simp [runTable, specWalk]
  | cons a rest ih =>
    intro hpos n
    have ha : 0 < a.arabic := hpos a (by simp)
    have hrest : posWeights rest := fun b hb => hpos b (by simp [hb])
    rw [runTable, specWalk]
    simp only [emitLoop_eq a.arabic ha]
    rw [ih hrest (n % a.arabic)]

namespace ArithmosStd

/-- Standard-range crate (src/src/lib.rs): smallest supported value. -/
def MIN : Nat := 0

/-- Standard-range crate: largest supported value. -/
def MAX : Nat := 9999

/-- The user-facing text of OutOfRangeError in the standard-range crate
(impl fmt::Display for OutOfRangeError). -/
def OutOfRangeError_display : String :=
  "Number out of range (must be between 1 and 9,999)."

/-- The 36-entry symbol table ARITHMOI of the standard-range crate, in its
source order (weights strictly descending from 9000 to 1). -/
def ARITHMOI : List Arabic2GreekStruct := [
  ⟨9000, [0x375, 0x398], [0x375, 0x3B8]⟩,  -- ͵Θ / ͵θ
  ⟨8000, [0x375, 0x397], [0x375, 0x3B7]⟩,  -- ͵Η / ͵η
  ⟨7000, [0x375, 0x396], [0x375, 0x3B6]⟩,  -- ͵Ζ / ͵ζ
  ⟨6000, [0x375, 0x395], [0x375, 0x3B5]⟩,  -- ͵Ε / ͵ε
  ⟨5000, [0x375, 0x395], [0x375, 0x3B5]⟩,  -- ͵Ε / ͵ε
  ⟨4000, [0x375, 0x394], [0x375, 0x3B4]⟩,  -- ͵Δ / ͵δ
  ⟨3000, [0x375, 0x393], [0x375, 0x3B3]⟩,  -- ͵Γ / ͵γ
  ⟨2000, [0x375, 0x392], [0x375, 0x3B2]⟩,  -- ͵Β / ͵β
  ⟨1000, [0x375, 0x391], [0x375, 0x3B1]⟩,  -- ͵Α / ͵α
  ⟨900, [0x3E0], [0x3E1]⟩,  -- Ϡ / ϡ
  ⟨800, [0x3A9], [0x3C9]⟩,  -- Ω / ω
  ⟨700, [0x3A8], [0x3C8]⟩,  -- Ψ / ψ
  ⟨600, [0x3A7], [0x3C7]⟩,  -- Χ / χ
  ⟨500, [0x3A6], [0x3C6]⟩,  -- Φ / φ
  ⟨400, [0x3A1], [0x3C1]⟩,  -- Ρ / ρ
  ⟨300, [0x3A1], [0x3C1]⟩,  -- Ρ / ρ
  ⟨200, [0x3A3], [0x3C3]⟩,  -- Σ / σ
  ⟨100, [0x3A1], [0x3C1]⟩,  -- Ρ / ρ
  ⟨90, [0x3D8], [0x3D9]⟩,  -- Ϙ / ϙ
  ⟨80, [0x3A0], [0x3C0]⟩,  -- Π / π
  ⟨70, [0x39F], [0x3BF]⟩,  -- Ο / ο
  ⟨60, [0x39E], [0x3BE]⟩,  -- Ξ / ξ
  ⟨50, [0x39D], [0x3BD]⟩,  -- Ν / ν
  ⟨40, [0x39C], [0x3BC]⟩,  -- Μ / μ
  ⟨30, [0x39B], [0x3BB]⟩,  -- Λ / λ
  ⟨20, [0x39A], [0x3BA]⟩,  -- Κ / κ
  ⟨10, [0x399], [0x3B9]⟩,  -- Ι / ι
  ⟨9, [0x398], [0x3B8]⟩,  -- Θ / θ
  ⟨8, [0x397], [0x3B7]⟩,  -- Η / η
  ⟨7, [0x396], [0x3B6]⟩,  -- Ζ / ζ
  ⟨6, [0x3DC], [0x3DD]⟩,  -- Ϝ / ϝ
  ⟨5, [0x395], [0x3B5]⟩,  -- Ε / ε
  ⟨4, [0x394], [0x3B4]⟩,  -- Δ / δ
  ⟨3, [0x393], [0x3B3]⟩,  -- Γ / γ
  ⟨2, [0x392], [0x3B2]⟩,  -- Β / β
  ⟨1, [0x391], [0x3B1]⟩]  -- Α / α

/-- GreekNumeral::new of the standard-range crate: accepts exactly the
values below 10 000. -/
def new (value : Nat) : Except OutOfRangeError GreekNumeral :=
  if value < 10000 then .ok ⟨value⟩ else .error ⟨⟩

/-- GreekNumeral::to_uppercase of the standard-range crate. -/
def to_uppercase (x : GreekNumeral) : List Nat :=
  let n := x.val
  if n = 0 then ZERO_SIGN ++ TERMINATOR
  else (runTable Arabic2GreekStruct.u_attic ARITHMOI n).1 ++ TERMINATOR

/-- GreekNumeral::to_lowercase of the standard-range crate. -/
def to_lowercase (x : GreekNumeral) : List Nat :=
  let n := x.val
  if n = 0 then ZERO_SIGN ++ TERMINATOR
  else (runTable Arabic2GreekStruct.l_attic ARITHMOI n).1 ++ TERMINATOR

/-- TryFrom of u8: the u32::from widening is infallible, so this is new. -/
def try_from_u8 (v : Nat) : Except OutOfRangeError GreekNumeral := new v

/-- TryFrom of u16: the u32::from widening is infallible, so this is new. -/
def try_from_u16 (v : Nat) : Except OutOfRangeError GreekNumeral := new v

/-- TryFrom of u32: directly new. -/
def try_from_u32 (v : Nat) : Except OutOfRangeError GreekNumeral := new v

/-- TryFrom of u64: u32::try_from(value).map_or(Err(OutOfRangeError), Self::new). -/
def try_from_u64 (v : Nat) : Except OutOfRangeError GreekNumeral :=
  (u32_try_from_nat v).elim (.error ⟨⟩) new

/-- TryFrom of u128, same shape as u64. -/
def try_from_u128 (v : Nat) : Except OutOfRangeError GreekNumeral :=
  (u32_try_from_nat v).elim (.error ⟨⟩) new

/-- TryFrom of usize, same shape as u64. -/
def try_from_usize (v : Nat) : Except OutOfRangeError GreekNumeral :=
  (u32_try_from_nat v).elim (.error ⟨⟩) new

/-- TryFrom of i8: u32::try_from(value).map_or(Err(OutOfRangeError), Self::new). -/
def try_from_i8 (v : Int) : Except OutOfRangeError GreekNumeral :=
  (u32_try_from_int v).elim (.error ⟨⟩) new

/-- TryFrom of i16, same shape. -/
def try_from_i16 (v : Int) : Except OutOfRangeError GreekNumeral :=
  (u32_try_from_int v).elim (.error ⟨⟩) new

/-- TryFrom of i32, same shape. -/
def try_from_i32 (v : Int) : Except OutOfRangeError GreekNumeral :=
  (u32_try_from_int v).elim (.error ⟨⟩) new

/-- TryFrom of i64, same shape. -/
def try_from_i64 (v : Int) : Except OutOfRangeError GreekNumeral :=
  (u32_try_from_int v).elim (.error ⟨⟩) new

/-- TryFrom of i128, same shape. -/
def try_from_i128 (v : Int) : Except OutOfRangeError GreekNumeral :=
  (u32_try_from_int v).elim (.error ⟨⟩) new

end ArithmosStd

namespace ArithmosExt

/-- Extended-range crate (src/rust/src/lib.rs): smallest supported value. -/
def MIN : Nat := 0

/-- Extended-range crate: largest supported value. -/
def MAX : Nat := 999999

/-- The user-facing text of OutOfRangeError in the extended-range crate
(impl fmt::Display for OutOfRangeError). -/
def OutOfRangeError_display : String :=
  "Number out of range (must be between 1 and 999,999)."

/-- The 54-entry symbol table ARITHMOI of the extended-range crate, in its
source order (weights strictly descending from 900000 to 1); the last 36
entries coincide with the standard-range table. -/
def ARITHMOI : List Arabic2GreekStruct := [
  ⟨900000, [0x375, 0x3E0], [0x375, 0x3E1]⟩,  -- ͵Ϡ / ͵ϡ
  ⟨800000, [0x375, 0x3A9], [0x375, 0x3C9]⟩,  -- ͵Ω / ͵ω
  ⟨700000, [0x375, 0x3A8], [0x375, 0x3C8]⟩,  -- ͵Ψ / ͵ψ
  ⟨600000, [0x375, 0x3A7], [0x375, 0x3C7]⟩,  -- ͵Χ / ͵χ
  ⟨500000, [0x375, 0x3A6], [0x375, 0x3C6]⟩,  -- ͵Φ / ͵φ
  ⟨400000, [0x375, 0x3A5], [0x375, 0x3C5]⟩,  -- ͵Υ / ͵υ
  ⟨300000, [0x375, 0x3A4], [0x375, 0x3C4]⟩,  -- ͵Τ / ͵τ
  ⟨200000, [0x375, 0x3A3], [0x375, 0x3C3]⟩,  -- ͵Σ / ͵σ
  ⟨100000, [0x375, 0x3A1], [0x375, 0x3C1]⟩,  -- ͵Ρ / ͵ρ
  ⟨90000, [0x375, 0x3D8], [0x375, 0x3D9]⟩,  -- ͵Ϙ / ͵ϙ
  ⟨80000, [0x375, 0x3A0], [0x375, 0x3C0]⟩,  -- ͵Π / ͵π
  ⟨70000, [0x375, 0x39F], [0x375, 0x3BF]⟩,  -- ͵Ο / ͵ο
  ⟨60000, [0x375, 0x39E], [0x375, 0x3BE]⟩,  -- ͵Ξ / ͵ξ
  ⟨50000, [0x375, 0x39D], [0x375, 0x3BD]⟩,  -- ͵Ν / ͵ν
  ⟨40000, [0x375, 0x39C], [0x375, 0x3BC]⟩,  -- ͵Μ / ͵μ
  ⟨30000, [0x375, 0x39B], [0x375, 0x3BB]⟩,  -- ͵Λ / ͵λ
  ⟨20000, [0x375, 0x39A], [0x375, 0x3BA]⟩,  -- ͵Κ / ͵κ
  ⟨10000, [0x375, 0x399], [0x375, 0x3B9]⟩,  -- ͵Ι / ͵ι
  ⟨9000, [0x375, 0x398], [0x375, 0x3B8]⟩,  -- ͵Θ / ͵θ
  ⟨8000, [0x375, 0x397], [0x375, 0x3B7]⟩,  -- ͵Η / ͵η
  ⟨7000, [0x375, 0x396], [0x375, 0x3B6]⟩,  -- ͵Ζ / ͵ζ
  ⟨6000, [0x375, 0x395], [0x375, 0x3B5]⟩,  -- ͵Ε / ͵ε
  ⟨5000, [0x375, 0x395], [0x375, 0x3B5]⟩,  -- ͵Ε / ͵ε
  ⟨4000, [0x375, 0x394], [0x375, 0x3B4]⟩,  -- ͵Δ / ͵δ
  ⟨3000, [0x375, 0x393], [0x375, 0x3B3]⟩,  -- ͵Γ / ͵γ
  ⟨2000, [0x375, 0x392], [0x375, 0x3B2]⟩,  -- ͵Β / ͵β
  ⟨1000, [0x375, 0x391], [0x375, 0x3B1]⟩,  -- ͵Α / ͵α
  ⟨900, [0x3E0], [0x3E1]⟩,  -- Ϡ / ϡ
  ⟨800, [0x3A9], [0x3C9]⟩,  -- Ω / ω
  ⟨700, [0x3A8], [0x3C8]⟩,  -- Ψ / ψ
  ⟨600, [0x3A7], [0x3C7]⟩,  -- Χ / χ
  ⟨500, [0x3A6], [0x3C6]⟩,  -- Φ / φ
  ⟨400, [0x3A1], [0x3C1]⟩,  -- Ρ / ρ
  ⟨300, [0x3A1], [0x3C1]⟩,  -- Ρ / ρ
  ⟨200, [0x3A3], [0x3C3]⟩,  -- Σ / σ
  ⟨100, [0x3A1], [0x3C1]⟩,  -- Ρ / ρ
  ⟨90, [0x3D8], [0x3D9]⟩,  -- Ϙ / ϙ
  ⟨80, [0x3A0], [0x3C0]⟩,  -- Π / π
  ⟨70, [0x39F], [0x3BF]⟩,  -- Ο / ο
  ⟨60, [0x39E], [0x3BE]⟩,  -- Ξ / ξ
  ⟨50, [0x39D], [0x3BD]⟩,  -- Ν / ν
  ⟨40, [0x39C], [0x3BC]⟩,  -- Μ / μ
  ⟨30, [0x39B], [0x3BB]⟩,  -- Λ / λ
  ⟨20, [0x39A], [0x3BA]⟩,  -- Κ / κ
  ⟨10, [0x399], [0x3B9]⟩,  -- Ι / ι
  ⟨9, [0x398], [0x3B8]⟩,  -- Θ / θ
  ⟨8, [0x397], [0x3B7]⟩,  -- Η / η
  ⟨7, [0x396], [0x3B6]⟩,  -- Ζ / ζ
  ⟨6, [0x3DC], [0x3DD]⟩,  -- Ϝ / ϝ
  ⟨5, [0x395], [0x3B5]⟩,  -- Ε / ε
  ⟨4, [0x394], [0x3B4]⟩,  -- Δ / δ
  ⟨3, [0x393], [0x3B3]⟩,  -- Γ / γ
  ⟨2, [0x392], [0x3B2]⟩,  -- Β / β
  ⟨1, [0x391], [0x3B1]⟩]  -- Α / α

/-- GreekNumeral::new of the extended-range crate: accepts exactly the
values up to 999 999. -/
def new (value : Nat) : Except OutOfRangeError GreekNumeral :=
  if value ≤ 999999 then .ok ⟨value⟩ else .error ⟨⟩

/-- GreekNumeral::to_uppercase of the extended-range crate. -/
def to_uppercase (x : GreekNumeral) : List Nat :=
  let n := x.val
  if n = 0 then ZERO_SIGN ++ TERMINATOR
  else (runTable Arabic2GreekStruct.u_attic ARITHMOI n).1 ++ TERMINATOR

/-- GreekNumeral::to_lowercase of the extended-range crate. -/
def to_lowercase (x : GreekNumeral) : List Nat :=
  let n := x.val
  if n = 0 then ZERO_SIGN ++ TERMINATOR
  else (runTable Arabic2GreekStruct.l_attic ARITHMOI n).1 ++ TERMINATOR

/-- TryFrom of u8: the u32::from widening is infallible, so this is new. -/
def try_from_u8 (v : Nat) : Except OutOfRangeError GreekNumeral := new v

/-- TryFrom of u16: the u32::from widening is infallible, so this is new. -/
def try_from_u16 (v : Nat) : Except OutOfRangeError GreekNumeral := new v

/-- TryFrom of u32: directly new. -/
def try_from_u32 (v : Nat) : Except OutOfRangeError GreekNumeral := new v

/-- TryFrom of u64: u32::try_from(value).map_or(Err(OutOfRangeError), Self::new). -/
def try_from_u64 (v : Nat) : Except OutOfRangeError GreekNumeral :=
  (u32_try_from_nat v).elim (.error ⟨⟩) new

/-- TryFrom of u128, same shape as u64. -/
def try_from_u128 (v : Nat) : Except OutOfRangeError GreekNumeral :=
  (u32_try_from_nat v).elim (.error ⟨⟩) new

/-- TryFrom of usize, same shape as u64. -/
def try_from_usize (v : Nat) : Except OutOfRangeError GreekNumeral :=
  (u32_try_from_nat v).elim (.error ⟨⟩) new

/-- TryFrom of i8: u32::try_from(value).map_or(Err(OutOfRangeError), Self::new). -/
def try_from_i8 (v : Int) : Except OutOfRangeError GreekNumeral :=
  (u32_try_from_int v).elim (.error ⟨⟩) new

/-- TryFrom of i16, same shape. -/
def try_from_i16 (v : Int) : Except OutOfRangeError GreekNumeral :=
  (u32_try_from_int v).elim (.error ⟨⟩) new

/-- TryFrom of i32, same shape. -/
def try_from_i32 (v : Int) : Except OutOfRangeError GreekNumeral :=
  (u32_try_from_int v).elim (.error ⟨⟩) new

/-- TryFrom of i64, same shape. -/
def try_from_i64 (v : Int) : Except OutOfRangeError GreekNumeral :=
  (u32_try_from_int v).elim (.error ⟨⟩) new

/-- TryFrom of i128, same shape. -/
def try_from_i128 (v : Int) : Except OutOfRangeError GreekNumeral :=
  (u32_try_from_int v).elim (.error ⟨⟩) new

end ArithmosExt

/-- The per-entry counts of the walk depend only on the weights. -/
def countsW : List Nat → Nat → List Nat × Nat
  | [], n => ([], n)
  | w :: rest, n =>
    let p := emitCount w n
    let q := countsW rest p.2
    (p.1 :: q.1, q.2)

/-- counts projects to countsW through the weights of the table. -/
theorem counts_eq_countsW :
    ∀ (t : List Arabic2GreekStruct) n,
      counts t n = countsW (t.map Arabic2GreekStruct.arabic) n := by
  intro t
  induction t with
  | nil => intro n; simp [counts, countsW]
  | cons a rest ih =>
    intro n
    rw [counts, List.map_cons, countsW, ih]

/-- countsW distributes over concatenation of weight blocks, feeding the
remainder of the first block to the second. -/
theorem countsW_append :
    ∀ (l1 l2 : List Nat) n,
      countsW (l1 ++ l2) n =
        ((countsW l1 n).1 ++ (countsW l2 (countsW l1 n).2).1,
         (countsW l2 (countsW l1 n).2).2) := by
  intro l1
  induction l1 with
  | nil => intro l2 n; simp [countsW]
  | cons w rest ih =>
    intro l2 n
    rw [List.cons_append, countsW, countsW, ih]
    simp

/-- The weights of one decimal place of the tables: k multiples of w in
descending order, k * w down to 1 * w. -/
def multWeights (w : Nat) : Nat → List Nat
  | 0 => []
  | k + 1 => (k + 1) * w :: multWeights w k

/-- Once the remainder is below the place value, a whole descending block
of its multiples emits nothing and leaves the remainder unchanged. -/
theorem countsW_multWeights_lt (w : Nat) (hw : 0 < w) :
    ∀ k r, r < w → countsW (multWeights w k) r = (List.replicate k 0, r) := by
  intro k
  induction k with
  | zero => intro r _; simp [multWeights, countsW]
  | succ k ih =>
    intro r hr
    have hW : 0 < (k + 1) * w := by positivity
    have hrW : r < (k + 1) * w := lt_of_lt_of_le hr (Nat.le_mul_of_pos_left w (by omega))
    rw [multWeights, countsW, emitCount_eq _ hW]
    simp only [Nat.div_eq_of_lt hrW, Nat.mod_eq_of_lt hrW]
    rw [ih r hr]
    simp [List.replicate_succ]

/-- Block lemma: walking the k descending multiples of a place value w on
a remainder below (k + 1) * w emits at most one symbol in total within
the block (every count is 0 or 1 and their sum is at most 1), and leaves
exactly the remainder modulo the place value. -/
theorem countsW_multWeights_block (w : Nat) (hw : 0 < w) :
    ∀ k r, r < (k + 1) * w →
      (countsW (multWeights w k) r).1.sum ≤ 1 ∧
      (∀ c ∈ (countsW (multWeights w k) r).1, c ≤ 1) ∧
      (countsW (multWeights w k) r).2 = r % w := by
  intro k
  induction k with
  | zero =>
    intro r hr
    have hrw : r < w := by simpa using hr
    simp [multWeights, countsW, Nat.mod_eq_of_lt hrw]
  | succ k ih =>
    intro r hr
    have hW : 0 < (k + 1) * w := by positivity
    have hwW : w ≤ (k + 1) * w := Nat.le_mul_of_pos_left w (by omega)
    have hsucc : (k + 1 + 1) * w = (k + 1) * w + w := by ring
    rw [multWeights, countsW, emitCount_eq _ hW]
    by_cases hq : r < (k + 1) * w
    · simp only [Nat.div_eq_of_lt hq, Nat.mod_eq_of_lt hq]
      obtain ⟨h1, h2, h3⟩ := ih r hq
      refine ⟨by simpa using h1, ?_, h3⟩
      intro c hc
      rcases List.mem_cons.mp hc with h | h
      · omega
      · exact h2 c h
    · push_neg at hq
      have hq1 : r / ((k + 1) * w) = 1 := by
        have hlt : r / ((k + 1) * w) < 2 := by
          rw [Nat.div_lt_iff_lt_mul hW]
          omega
        have hge : 1 ≤ r / ((k + 1) * w) := (Nat.one_le_div_iff hW).mpr hq
        omega
      have hr1 : r % ((k + 1) * w) = r - (k + 1) * w := by
        rw [Nat.mod_eq_sub_mod hq]
        exact Nat.mod_eq_of_lt (by omega)
      have hsmall : r - (k + 1) * w < w := by omega
      rw [hq1, hr1, countsW_multWeights_lt w hw k _ hsmall]
      have hmod : r % w = r - (k + 1) * w := by
        have h0 : w * (k + 1) ≤ r := by rw [mul_comm]; exact hq
        have := Nat.sub_mul_mod (x := r) (k := k + 1) (n := w) h0
        rw [mul_comm w (k + 1)] at this
        rw [← this]
        exact Nat.mod_eq_of_lt hsmall
      refine ⟨?_, ?_, hmod.symm⟩
      · simp
      · intro c hc
        rcases List.mem_cons.mp hc with h | h
        · omega
        · have := List.eq_of_mem_replicate h
          omega

/-- The standard table carries the descending multiples of 1000, 100, 10
and 1, nine of each. -/
theorem stdWeights_decomp :
    ArithmosStd.ARITHMOI.map Arabic2GreekStruct.arabic =
      multWeights 1000 9 ++ (multWeights 100 9 ++ (multWeights 10 9 ++ multWeights 1 9)) := by
  decide

/-- The extended table adds the descending multiples of 100000 and 10000
in front of the standard blocks. -/
theorem extWeights_decomp :
    ArithmosExt.ARITHMOI.map Arabic2GreekStruct.arabic =
      multWeights 100000 9 ++ (multWeights 10000 9 ++ (multWeights 1000 9 ++
        (multWeights 100 9 ++ (multWeights 10 9 ++ multWeights 1 9)))) := by
  decide

/-- Both tables have positive weights only. -/
theorem ARITHMOI_std_pos : posWeights ArithmosStd.ARITHMOI := by
  unfold posWeights
  decide

/-- Both tables have positive weights only (extended variant). -/
theorem ARITHMOI_ext_pos : posWeights ArithmosExt.ARITHMOI := by
  unfold posWeights
  decide

/-- On the standard table every entry count is 0 or 1 and at most four
entries emit at all. -/
theorem counts_std_bounds (v : Nat) (h : v ≤ 9999) :
    (∀ c ∈ (counts ArithmosStd.ARITHMOI v).1, c ≤ 1) ∧
    (counts ArithmosStd.ARITHMOI v).1.sum ≤ 4 := by
  rw [counts_eq_countsW, stdWeights_decomp]
  rw [countsW_append, countsW_append, countsW_append]
  obtain ⟨s1, a1, e1⟩ := countsW_multWeights_block 1000 (by norm_num) 9 v (by omega)
  rw [e1]
  have hv1 : v % 1000 < 1000 := Nat.mod_lt _ (by norm_num)
  obtain ⟨s2, a2, e2⟩ := countsW_multWeights_block 100 (by norm_num) 9 (v % 1000) (by omega)
  rw [e2]
  have hv2 : v % 1000 % 100 < 100 := Nat.mod_lt _ (by norm_num)
  obtain ⟨s3, a3, e3⟩ := countsW_multWeights_block 10 (by norm_num) 9 (v % 1000 % 100) (by omega)
  rw [e3]
  have hv3 : v % 1000 % 100 % 10 < 10 := Nat.mod_lt _ (by norm_num)
  obtain ⟨s4, a4, e4⟩ :=
    countsW_multWeights_block 1 (by norm_num) 9 (v % 1000 % 100 % 10) (by omega)
  constructor
  · intro c hc
    simp only [List.mem_append] at hc
    rcases hc with h | h | h | h
    · exact a1 c h
    · exact a2 c h
    · exact a3 c h
    · exact a4 c h
  · simp only [List.sum_append]
    omega

/-- On the extended table every entry count is 0 or 1 and at most six
entries emit at all. -/
theorem counts_ext_bounds (v : Nat) (h : v ≤ 999999) :
    (∀ c ∈ (counts ArithmosExt.ARITHMOI v).1, c ≤ 1) ∧
    (counts ArithmosExt.ARITHMOI v).1.sum ≤ 6 := by
  rw [counts_eq_countsW, extWeights_decomp]
  rw [countsW_append, countsW_append, countsW_append, countsW_append, countsW_append]
  obtain ⟨s1, a1, e1⟩ := countsW_multWeights_block 100000 (by norm_num) 9 v (by omega)
  rw [e1]
  have hv1 : v % 100000 < 100000 := Nat.mod_lt _ (by norm_num)
  obtain ⟨s2, a2, e2⟩ := countsW_multWeights_block 10000 (by norm_num) 9 (v % 100000) (by omega)
  rw [e2]
  have hv2 : v % 100000 % 10000 < 10000 := Nat.mod_lt _ (by norm_num)
  obtain ⟨s3, a3, e3⟩ :=
    countsW_multWeights_block 1000 (by norm_num) 9 (v % 100000 % 10000) (by omega)
  rw [e3]
  have hv3 : v % 100000 % 10000 % 1000 < 1000 := Nat.mod_lt _ (by norm_num)
  obtain ⟨s4, a4, e4⟩ :=
    countsW_multWeights_block 100 (by norm_num) 9 (v % 100000 % 10000 % 1000) (by omega)
  rw [e4]
  have hv4 : v % 100000 % 10000 % 1000 % 100 < 100 := Nat.mod_lt _ (by norm_num)
  obtain ⟨s5, a5, e5⟩ :=
    countsW_multWeights_block 10 (by norm_num) 9 (v % 100000 % 10000 % 1000 % 100) (by omega)
  rw [e5]
  have hv5 : v % 100000 % 10000 % 1000 % 100 % 10 < 10 := Nat.mod_lt _ (by norm_num)
  obtain ⟨s6, a6, e6⟩ :=
    countsW_multWeights_block 1 (by norm_num) 9 (v % 100000 % 10000 % 1000 % 100 % 10) (by omega)
  constructor
  · intro c hc
    simp only [List.mem_append] at hc
    rcases hc with h | h | h | h | h | h
    · exact a1 c h
    · exact a2 c h
    · exact a3 c h
    · exact a4 c h
    · exact a5 c h
    · exact a6 c h
  · simp only [List.sum_append]
    omega

/-- The uppercase glyph the table holds at a given weight (first entry of
that weight in table order). -/
def uGlyphOfWeight (t : List Arabic2GreekStruct) (w : Nat) : List Nat :=
  ((t.find? fun a => a.arabic == w).map Arabic2GreekStruct.u_attic).getD []

/-- The lowercase glyph the table holds at a given weight. -/
def lGlyphOfWeight (t : List Arabic2GreekStruct) (w : Nat) : List Nat :=
  ((t.find? fun a => a.arabic == w).map Arabic2GreekStruct.l_attic).getD []

/-- The pair of case glyphs the table holds at a given weight. -/
def glyphPairOfWeight (t : List Arabic2GreekStruct) (w : Nat) : List Nat × List Nat :=
  (uGlyphOfWeight t w, lGlyphOfWeight t w)

/-- The glyph pairs (uppercase, lowercase) a rendering of v draws from, in
emission order, with the terminator pair at the end; for zero the zero
sign pair stands alone before the terminator. -/
def glyphPairs (t : List Arabic2GreekStruct) (v : Nat) : List (List Nat × List Nat) :=
  (if v = 0 then [(ZERO_SIGN, ZERO_SIGN)]
   else (emissions t v).1.map fun a => (a.u_attic, a.l_attic)) ++ [(TERMINATOR, TERMINATOR)]

/-- C3: rendering the variant maximum in uppercase yields exactly the
all-nines glyph sequence and the terminator: in the standard variant the
glyphs of weights 9000, 900, 90, 9 in that order, in the extended variant
the glyphs of weights 900000, 90000, 9000, 900, 90, 9 in that order, each
followed by the terminator. -/
theorem C3_max_renders_all_nines :
    ArithmosStd.to_uppercase ⟨9999⟩ =
      uGlyphOfWeight ArithmosStd.ARITHMOI 9000 ++ uGlyphOfWeight ArithmosStd.ARITHMOI 900 ++
      uGlyphOfWeight ArithmosStd.ARITHMOI 90 ++ uGlyphOfWeight ArithmosStd.ARITHMOI 9 ++
      TERMINATOR ∧
    ArithmosExt.to_uppercase ⟨999999⟩ =
      uGlyphOfWeight ArithmosExt.ARITHMOI 900000 ++ uGlyphOfWeight ArithmosExt.ARITHMOI 90000 ++
      uGlyphOfWeight ArithmosExt.ARITHMOI 9000 ++ uGlyphOfWeight ArithmosExt.ARITHMOI 900 ++
      uGlyphOfWeight ArithmosExt.ARITHMOI 90 ++ uGlyphOfWeight ArithmosExt.ARITHMOI 9 ++
      TERMINATOR := by
  decide

/-- C4: the value zero renders, in either variant and either case, to
exactly the zero marker glyph U+1018A followed by the terminator glyph
U+0027, and nothing else. -/
theorem C4_zero_rendering :
    ArithmosStd.to_uppercase ⟨0⟩ = ZERO_SIGN ++ TERMINATOR ∧
    ArithmosStd.to_lowercase ⟨0⟩ = ZERO_SIGN ++ TERMINATOR ∧
    ArithmosExt.to_uppercase ⟨0⟩ = ZERO_SIGN ++ TERMINATOR ∧
    ArithmosExt.to_lowercase ⟨0⟩ = ZERO_SIGN ++ TERMINATOR ∧
    ZERO_SIGN = [0x1018A] ∧ TERMINATOR = [0x27] := by
  decide

/-- C6 counterexample: the claim includes the weight-500 entry and the
900-range among the adjacent-weight glyph collisions, but the weight-500
entry (Phi) differs from its adjacent weight-400 entry (Rho) in both
cases, and in the extended table the 900000-range entries are pairwise
distinct as well (900000 and 800000 shown). -/
theorem C6_collisions_counterexample :
    glyphPairOfWeight ArithmosStd.ARITHMOI 500 ≠ glyphPairOfWeight ArithmosStd.ARITHMOI 400 ∧
    glyphPairOfWeight ArithmosStd.ARITHMOI 500 ≠ glyphPairOfWeight ArithmosStd.ARITHMOI 600 ∧
    glyphPairOfWeight ArithmosExt.ARITHMOI 900000 ≠ glyphPairOfWeight ArithmosExt.ARITHMOI 800000 := by
  decide

/-- C6 (amended): in the static symbol table of either variant, the
entries at weights 400, 300 and 100 reuse the identical glyph pair (equal
uppercase symbols, the capital Rho U+03A1, and equal lowercase symbols,
the small rho U+03C1), exactly as enumerated in the source table. -/
theorem C6_glyph_collisions :
    glyphPairOfWeight ArithmosStd.ARITHMOI 400 = glyphPairOfWeight ArithmosStd.ARITHMOI 300 ∧
    glyphPairOfWeight ArithmosStd.ARITHMOI 300 = glyphPairOfWeight ArithmosStd.ARITHMOI 100 ∧
    glyphPairOfWeight ArithmosStd.ARITHMOI 400 = ([0x3A1], [0x3C1]) ∧
    glyphPairOfWeight ArithmosExt.ARITHMOI 400 = glyphPairOfWeight ArithmosExt.ARITHMOI 300 ∧
    glyphPairOfWeight ArithmosExt.ARITHMOI 300 = glyphPairOfWeight ArithmosExt.ARITHMOI 100 ∧
    glyphPairOfWeight ArithmosExt.ARITHMOI 400 = ([0x3A1], [0x3C1]) := by
  decide

/-- C10: the user-facing RangeError text of both variants states the
valid range as beginning at 1, yet the smallest accepted value is the
documented MIN = 0 and the constructor accepts 0, so the message
understates the accepted range. -/
theorem C10_error_message_understates_range :
    ArithmosStd.OutOfRangeError_display =
      "Number out of range (must be between 1 and 9,999)." ∧
    ArithmosExt.OutOfRangeError_display =
      "Number out of range (must be between 1 and 999,999)." ∧
    ArithmosStd.MIN = 0 ∧ ArithmosExt.MIN = 0 ∧
    ArithmosStd.new 0 = .ok ⟨0⟩ ∧ ArithmosExt.new 0 = .ok ⟨0⟩ :=
  ⟨rfl, rfl, rfl, rfl, rfl, rfl⟩

/-- C1: for every valid nonzero value and either case, the rendering is
exactly the greedy walk of the symbol table in descending-weight order
(each entry emitting its case glyph once per subtraction of its weight,
i.e. remaining / weight times, then passing on remaining % weight),
followed by the terminator glyph. -/
theorem C1_render_is_greedy_walk :
    (∀ v : Nat, 1 ≤ v → v ≤ ArithmosStd.MAX →
      ArithmosStd.to_uppercase ⟨v⟩ =
        specWalk Arabic2GreekStruct.u_attic ArithmosStd.ARITHMOI v ++ TERMINATOR ∧
      ArithmosStd.to_lowercase ⟨v⟩ =
        specWalk Arabic2GreekStruct.l_attic ArithmosStd.ARITHMOI v ++ TERMINATOR) ∧
    (∀ v : Nat, 1 ≤ v → v ≤ ArithmosExt.MAX →
      ArithmosExt.to_uppercase ⟨v⟩ =
        specWalk Arabic2GreekStruct.u_attic ArithmosExt.ARITHMOI v ++ TERMINATOR ∧
      ArithmosExt.to_lowercase ⟨v⟩ =
        specWalk Arabic2GreekStruct.l_attic ArithmosExt.ARITHMOI v ++ TERMINATOR) := by
  constructor
  · intro v h1 _
    have hv : ¬ v = 0 := by omega
    constructor
    · simp only [ArithmosStd.to_uppercase, hv, if_false]
      rw [runTable_eq_specWalk _ _ ARITHMOI_std_pos]
    · simp only [ArithmosStd.to_lowercase, hv, if_false]
      rw [runTable_eq_specWalk _ _ ARITHMOI_std_pos]
  · intro v h1 _
    have hv : ¬ v = 0 := by omega
    constructor
    · simp only [ArithmosExt.to_uppercase, hv, if_false]
      rw [runTable_eq_specWalk _ _ ARITHMOI_ext_pos]
    · simp only [ArithmosExt.to_lowercase, hv, if_false]
      rw [runTable_eq_specWalk _ _ ARITHMOI_ext_pos]

/-- C1 witness: the greedy-walk equation evaluated at 42 (standard) and
at 123456 (extended). -/
theorem C1_render_is_greedy_walk_witness :
    ArithmosStd.to_uppercase ⟨42⟩ =
      specWalk Arabic2GreekStruct.u_attic ArithmosStd.ARITHMOI 42 ++ TERMINATOR ∧
    ArithmosExt.to_lowercase ⟨123456⟩ =
      specWalk Arabic2GreekStruct.l_attic ArithmosExt.ARITHMOI 123456 ++ TERMINATOR :=
  ⟨(C1_render_is_greedy_walk.1 42 (by decide) (by decide)).1,
   (C1_render_is_greedy_walk.2 123456 (by decide) (by decide)).2⟩

/-- C2: the constructor of either variant succeeds exactly on values up
to its MAX, storing the value unchanged (as_u32 returns it exactly), and
returns the RangeError on every larger value. -/
theorem C2_constructor_range :
    (∀ v : Nat,
      (v ≤ ArithmosStd.MAX →
        ArithmosStd.new v = .ok ⟨v⟩ ∧ (GreekNumeral.mk v).as_u32 = v) ∧
      (ArithmosStd.MAX < v → ArithmosStd.new v = .error ⟨⟩)) ∧
    (∀ v : Nat,
      (v ≤ ArithmosExt.MAX →
        ArithmosExt.new v = .ok ⟨v⟩ ∧ (GreekNumeral.mk v).as_u32 = v) ∧
      (ArithmosExt.MAX < v → ArithmosExt.new v = .error ⟨⟩)) := by
  constructor
  · intro v
    constructor
    · intro h
      have hc : v < 10000 := by
        simp only [ArithmosStd.MAX] at h
        omega
      exact ⟨by simp [ArithmosStd.new, hc], rfl⟩
    · intro h
      have hc : ¬ v < 10000 := by
        simp only [ArithmosStd.MAX] at h
        omega
      simp [ArithmosStd.new, hc]
  · intro v
    constructor
    · intro h
      have hc : v ≤ 999999 := by
        simp only [ArithmosExt.MAX] at h
        omega
      exact ⟨by simp [ArithmosExt.new, hc], rfl⟩
    · intro h
      have hc : ¬ v ≤ 999999 := by
        simp only [ArithmosExt.MAX] at h
        omega
      simp [ArithmosExt.new, hc]

/-- C2 witness: the constructor contract evaluated at 42 and 10000
(standard) and at 999999 and 1000000 (extended). -/
theorem C2_constructor_range_witness :
    ArithmosStd.new 42 = .ok ⟨42⟩ ∧ ArithmosStd.new 10000 = .error ⟨⟩ ∧
    ArithmosExt.new 999999 = .ok ⟨999999⟩ ∧ ArithmosExt.new 1000000 = .error ⟨⟩ :=
  ⟨((C2_constructor_range.1 42).1 (by decide)).1,
   (C2_constructor_range.1 10000).2 (by decide),
   ((C2_constructor_range.2 999999).1 (by decide)).1,
   (C2_constructor_range.2 1000000).2 (by decide)⟩

/-- C5: for every valid value the uppercase and the lowercase rendering
are drawn from one and the same sequence of table positions, in the same
order and with the same glyph count, each position contributing its
uppercase respectively lowercase glyph, and both end in the same
terminator: both renderings are the flattening of the same pair list,
projected to the first respectively second component. -/
theorem C5_case_parallel :
    (∀ v : Nat, v ≤ ArithmosStd.MAX →
      ArithmosStd.to_uppercase ⟨v⟩ =
        ((glyphPairs ArithmosStd.ARITHMOI v).map Prod.fst).flatten ∧
      ArithmosStd.to_lowercase ⟨v⟩ =
        ((glyphPairs ArithmosStd.ARITHMOI v).map Prod.snd).flatten) ∧
    (∀ v : Nat, v ≤ ArithmosExt.MAX →
      ArithmosExt.to_uppercase ⟨v⟩ =
        ((glyphPairs ArithmosExt.ARITHMOI v).map Prod.fst).flatten ∧
      ArithmosExt.to_lowercase ⟨v⟩ =
        ((glyphPairs ArithmosExt.ARITHMOI v).map Prod.snd).flatten) := by
  constructor
  · intro v _
    by_cases hv : v = 0
    · subst hv
      constructor <;> decide
    · constructor
      · simp only [ArithmosStd.to_uppercase, hv, if_false, glyphPairs]
        rw [runTable_eq_emissions _ _ ARITHMOI_std_pos]
        simp only [List.map_append, List.flatten_append, List.map_map]
        rfl
      · simp only [ArithmosStd.to_lowercase, hv, if_false, glyphPairs]
        rw [runTable_eq_emissions _ _ ARITHMOI_std_pos]
        simp only [List.map_append, List.flatten_append, List.map_map]
        rfl
  · intro v _
    by_cases hv : v = 0
    · subst hv
      constructor <;> decide
    · constructor
      · simp only [ArithmosExt.to_uppercase, hv, if_false, glyphPairs]
        rw [runTable_eq_emissions _ _ ARITHMOI_ext_pos]
        simp only [List.map_append, List.flatten_append, List.map_map]
        rfl
      · simp only [ArithmosExt.to_lowercase, hv, if_false, glyphPairs]
        rw [runTable_eq_emissions _ _ ARITHMOI_ext_pos]
        simp only [List.map_append, List.flatten_append, List.map_map]
        rfl

/-- C5 witness: the parallel-case equations evaluated at 42 (standard)
and 123456 (extended). -/
theorem C5_case_parallel_witness :
    ArithmosStd.to_uppercase ⟨42⟩ =
      ((glyphPairs ArithmosStd.ARITHMOI 42).map Prod.fst).flatten ∧
    ArithmosExt.to_lowercase ⟨123456⟩ =
      ((glyphPairs ArithmosExt.ARITHMOI 123456).map Prod.snd).flatten :=
  ⟨(C5_case_parallel.1 42 (by decide)).1, (C5_case_parallel.2 123456 (by decide)).2⟩

/-- C7: for every valid value the inner while loop body runs at most once
per table entry (every per-entry count is 0 or 1), so the rendering of a
valid value consists of at most one glyph per entry — at most 4 glyphs
before the terminator in the standard variant and at most 6 in the
extended variant — the glyphs of the emission sequence followed by the
terminator. -/
theorem C7_at_most_one_emission_per_entry :
    (∀ v : Nat, v ≤ ArithmosStd.MAX →
      (∀ c ∈ (counts ArithmosStd.ARITHMOI v).1, c ≤ 1) ∧
      (emissions ArithmosStd.ARITHMOI v).1.length ≤ 4 ∧
      (v ≠ 0 → ArithmosStd.to_uppercase ⟨v⟩ =
        ((emissions ArithmosStd.ARITHMOI v).1.map Arabic2GreekStruct.u_attic).flatten ++
          TERMINATOR)) ∧
    (∀ v : Nat, v ≤ ArithmosExt.MAX →
      (∀ c ∈ (counts ArithmosExt.ARITHMOI v).1, c ≤ 1) ∧
      (emissions ArithmosExt.ARITHMOI v).1.length ≤ 6 ∧
      (v ≠ 0 → ArithmosExt.to_uppercase ⟨v⟩ =
        ((emissions ArithmosExt.ARITHMOI v).1.map Arabic2GreekStruct.u_attic).flatten ++
          TERMINATOR)) := by
  constructor
  · intro v hv
    obtain ⟨hall, hsum⟩ := counts_std_bounds v hv
    refine ⟨hall, ?_, ?_⟩
    · rw [(emissions_eq_counts ArithmosStd.ARITHMOI v).1]
      exact hsum
    · intro h0
      simp only [ArithmosStd.to_uppercase, h0, if_false]
      rw [runTable_eq_emissions _ _ ARITHMOI_std_pos]
  · intro v hv
    obtain ⟨hall, hsum⟩ := counts_ext_bounds v hv
    refine ⟨hall, ?_, ?_⟩
    · rw [(emissions_eq_counts ArithmosExt.ARITHMOI v).1]
      exact hsum
    · intro h0
      simp only [ArithmosExt.to_uppercase, h0, if_false]
      rw [runTable_eq_emissions _ _ ARITHMOI_ext_pos]

/-- C7 witness: the bounds evaluated at the two variant maxima. -/
theorem C7_at_most_one_emission_per_entry_witness :
    ((∀ c ∈ (counts ArithmosStd.ARITHMOI 9999).1, c ≤ 1) ∧
     (emissions ArithmosStd.ARITHMOI 9999).1.length ≤ 4) ∧
    ((∀ c ∈ (counts ArithmosExt.ARITHMOI 999999).1, c ≤ 1) ∧
     (emissions ArithmosExt.ARITHMOI 999999).1.length ≤ 6) :=
  ⟨⟨(C7_at_most_one_emission_per_entry.1 9999 (by decide)).1,
    (C7_at_most_one_emission_per_entry.1 9999 (by decide)).2.1⟩,
   ⟨(C7_at_most_one_emission_per_entry.2 999999 (by decide)).1,
    (C7_at_most_one_emission_per_entry.2 999999 (by decide)).2.1⟩⟩

/-- C9: rendering is not injective — 100, 300 and 400 all render to the
shared Rho glyph plus terminator in both cases and both variants, 5000
and 6000 render identically as well, and consequently no total parse
function from rendered text back to values can round-trip every valid
value through its uppercase rendering. -/
theorem C9_rendering_not_injective :
    (ArithmosStd.to_uppercase ⟨100⟩ = [0x3A1, 0x27] ∧
     ArithmosStd.to_uppercase ⟨300⟩ = [0x3A1, 0x27] ∧
     ArithmosStd.to_uppercase ⟨400⟩ = [0x3A1, 0x27] ∧
     ArithmosStd.to_lowercase ⟨100⟩ = [0x3C1, 0x27] ∧
     ArithmosStd.to_lowercase ⟨300⟩ = [0x3C1, 0x27] ∧
     ArithmosStd.to_lowercase ⟨400⟩ = [0x3C1, 0x27] ∧
     ArithmosStd.to_uppercase ⟨5000⟩ = ArithmosStd.to_uppercase ⟨6000⟩ ∧
     ArithmosStd.to_lowercase ⟨5000⟩ = ArithmosStd.to_lowercase ⟨6000⟩) ∧
    (ArithmosExt.to_uppercase ⟨100⟩ = [0x3A1, 0x27] ∧
     ArithmosExt.to_uppercase ⟨300⟩ = [0x3A1, 0x27] ∧
     ArithmosExt.to_uppercase ⟨400⟩ = [0x3A1, 0x27] ∧
     ArithmosExt.to_lowercase ⟨100⟩ = [0x3C1, 0x27] ∧
     ArithmosExt.to_lowercase ⟨300⟩ = [0x3C1, 0x27] ∧
     ArithmosExt.to_lowercase ⟨400⟩ = [0x3C1, 0x27] ∧
     ArithmosExt.to_uppercase ⟨5000⟩ = ArithmosExt.to_uppercase ⟨6000⟩ ∧
     ArithmosExt.to_lowercase ⟨5000⟩ = ArithmosExt.to_lowercase ⟨6000⟩) ∧
    (∀ f : List Nat → Nat, ∃ v, v ≤ ArithmosStd.MAX ∧
      f (ArithmosStd.to_uppercase ⟨v⟩) ≠ v) ∧
    (∀ f : List Nat → Nat, ∃ v, v ≤ ArithmosExt.MAX ∧
      f (ArithmosExt.to_uppercase ⟨v⟩) ≠ v) := by
  refine ⟨by decide, by decide, fun f => ?_, fun f => ?_⟩
  · by_cases h : f [0x3A1, 0x27] = 300
    · refine ⟨400, by decide, ?_⟩
      have h4 : ArithmosStd.to_uppercase ⟨400⟩ = [0x3A1, 0x27] := by decide
      rw [h4, h]
      omega
    · refine ⟨300, by decide, ?_⟩
      have h3 : ArithmosStd.to_uppercase ⟨300⟩ = [0x3A1, 0x27] := by decide
      rw [h3]
      exact h
  · by_cases h : f [0x3A1, 0x27] = 300
    · refine ⟨400, by decide, ?_⟩
      have h4 : ArithmosExt.to_uppercase ⟨400⟩ = [0x3A1, 0x27] := by decide
      rw [h4, h]
      omega
    · refine ⟨300, by decide, ?_⟩
      have h3 : ArithmosExt.to_uppercase ⟨300⟩ = [0x3A1, 0x27] := by decide
      rw [h3]
      exact h

/-- C9 witness: the no-round-trip component applied to the concrete
constant parse function. -/
theorem C9_rendering_not_injective_witness :
    (∃ v, v ≤ ArithmosStd.MAX ∧
      (fun _ : List Nat => 0) (ArithmosStd.to_uppercase ⟨v⟩) ≠ v) ∧
    (∃ v, v ≤ ArithmosExt.MAX ∧
      (fun _ : List Nat => 0) (ArithmosExt.to_uppercase ⟨v⟩) ≠ v) :=
  ⟨C9_rendering_not_injective.2.2.1 (fun _ => 0),
   C9_rendering_not_injective.2.2.2 (fun _ => 0)⟩

/-- The standard constructor errors exactly above MAX. -/
theorem new_error_iff_std (v : Nat) :
    ArithmosStd.new v = .error ⟨⟩ ↔ ArithmosStd.MAX < v := by
  unfold ArithmosStd.new ArithmosStd.MAX
  by_cases h : v < 10000
  · simp only [if_pos h]
    simp
    omega
  · simp only [if_neg h]
    simp
    omega

/-- The extended constructor errors exactly above MAX. -/
theorem new_error_iff_ext (v : Nat) :
    ArithmosExt.new v = .error ⟨⟩ ↔ ArithmosExt.MAX < v := by
  unfold ArithmosExt.new ArithmosExt.MAX
  by_cases h : v ≤ 999999
  · simp only [if_pos h]
    simp
    omega
  · simp only [if_neg h]
    simp
    omega

/-- The guarded unsigned conversion of the standard crate errors exactly
when the value misses u32 or exceeds MAX, and otherwise agrees with the
constructor on the equal value. -/
theorem try_nat_guard_std (v : Nat) :
    ((u32_try_from_nat v).elim (Except.error ⟨⟩) ArithmosStd.new = .error ⟨⟩ ↔
      (u32MAX < v ∨ ArithmosStd.MAX < v)) ∧
    (v ≤ ArithmosStd.MAX →
      (u32_try_from_nat v).elim (Except.error ⟨⟩) ArithmosStd.new = ArithmosStd.new v) := by
  unfold u32_try_from_nat u32MAX ArithmosStd.MAX
  by_cases h1 : v ≤ 4294967295
  · simp only [if_pos h1, Option.elim_some]
    have hiff := new_error_iff_std v
    unfold ArithmosStd.MAX at hiff
    refine ⟨?_, fun _ => by trivial⟩
    rw [hiff]
    omega
  · simp only [if_neg h1, Option.elim_none]
    refine ⟨⟨fun _ => by omega, fun _ => by trivial⟩, fun hle => absurd hle (by omega)⟩

/-- The guarded unsigned conversion of the extended crate. -/
theorem try_nat_guard_ext (v : Nat) :
    ((u32_try_from_nat v).elim (Except.error ⟨⟩) ArithmosExt.new = .error ⟨⟩ ↔
      (u32MAX < v ∨ ArithmosExt.MAX < v)) ∧
    (v ≤ ArithmosExt.MAX →
      (u32_try_from_nat v).elim (Except.error ⟨⟩) ArithmosExt.new = ArithmosExt.new v) := by
  unfold u32_try_from_nat u32MAX ArithmosExt.MAX
  by_cases h1 : v ≤ 4294967295
  · simp only [if_pos h1, Option.elim_some]
    have hiff := new_error_iff_ext v
    unfold ArithmosExt.MAX at hiff
    refine ⟨?_, fun _ => by trivial⟩
    rw [hiff]
    omega
  · simp only [if_neg h1, Option.elim_none]
    refine ⟨⟨fun _ => by omega, fun _ => by trivial⟩, fun hle => absurd hle (by omega)⟩

/-- The guarded signed conversion of the standard crate errors exactly
when the value is negative, misses u32, or exceeds MAX, and otherwise
agrees with the constructor on the equal value. -/
theorem try_int_guard_std (v : Int) :
    ((u32_try_from_int v).elim (Except.error ⟨⟩) ArithmosStd.new = .error ⟨⟩ ↔
      (v < 0 ∨ (u32MAX : Int) < v ∨ (ArithmosStd.MAX : Int) < v)) ∧
    (0 ≤ v → v ≤ (ArithmosStd.MAX : Int) →
      (u32_try_from_int v).elim (Except.error ⟨⟩) ArithmosStd.new = ArithmosStd.new v.toNat) := by
  unfold u32_try_from_int u32MAX ArithmosStd.MAX
  by_cases h1 : 0 ≤ v ∧ v ≤ ((4294967295 : Nat) : Int)
  · simp only [if_pos h1, Option.elim_some]
    have hiff := new_error_iff_std v.toNat
    unfold ArithmosStd.MAX at hiff
    refine ⟨?_, fun _ _ => by trivial⟩
    rw [hiff]
    omega
  · simp only [if_neg h1, Option.elim_none]
    refine ⟨⟨fun _ => by omega, fun _ => by trivial⟩, fun hge hle => absurd ⟨hge, by omega⟩ h1⟩

/-- The guarded signed conversion of the extended crate. -/
theorem try_int_guard_ext (v : Int) :
    ((u32_try_from_int v).elim (Except.error ⟨⟩) ArithmosExt.new = .error ⟨⟩ ↔
      (v < 0 ∨ (u32MAX : Int) < v ∨ (ArithmosExt.MAX : Int) < v)) ∧
    (0 ≤ v → v ≤ (ArithmosExt.MAX : Int) →
      (u32_try_from_int v).elim (Except.error ⟨⟩) ArithmosExt.new = ArithmosExt.new v.toNat) := by
  unfold u32_try_from_int u32MAX ArithmosExt.MAX
  by_cases h1 : 0 ≤ v ∧ v ≤ ((4294967295 : Nat) : Int)
  · simp only [if_pos h1, Option.elim_some]
    have hiff := new_error_iff_ext v.toNat
    unfold ArithmosExt.MAX at hiff
    refine ⟨?_, fun _ _ => by trivial⟩
    rw [hiff]
    omega
  · simp only [if_neg h1, Option.elim_none]
    refine ⟨⟨fun _ => by omega, fun _ => by trivial⟩, fun hge hle => absurd ⟨hge, by omega⟩ h1⟩

/-- C8: every typed conversion entry point (TryFrom of each fixed-width
unsigned and signed integer type and usize, in both variants) fails with
the one RangeError kind exactly when the input is negative, exceeds the
u32 width, or exceeds the configured upper bound, and on every other
input yields the very result of constructing from the equal u32 value;
the error type has a single value, so a conversion failure is
indistinguishable from an out-of-bounds failure. -/
theorem C8_try_from_conversions :
    ((∀ v : Nat, v < 256 →
       (ArithmosStd.try_from_u8 v = .error ⟨⟩ ↔ ArithmosStd.MAX < v) ∧
       (v ≤ ArithmosStd.MAX → ArithmosStd.try_from_u8 v = ArithmosStd.new v)) ∧
     (∀ v : Nat, v < 65536 →
       (ArithmosStd.try_from_u16 v = .error ⟨⟩ ↔ ArithmosStd.MAX < v) ∧
       (v ≤ ArithmosStd.MAX → ArithmosStd.try_from_u16 v = ArithmosStd.new v)) ∧
     (∀ v : Nat, v < 4294967296 →
       (ArithmosStd.try_from_u32 v = .error ⟨⟩ ↔ ArithmosStd.MAX < v) ∧
       (v ≤ ArithmosStd.MAX → ArithmosStd.try_from_u32 v = ArithmosStd.new v)) ∧
     (∀ v : Nat,
       (ArithmosStd.try_from_u64 v = .error ⟨⟩ ↔ (u32MAX < v ∨ ArithmosStd.MAX < v)) ∧
       (v ≤ ArithmosStd.MAX → ArithmosStd.try_from_u64 v = ArithmosStd.new v)) ∧
     (∀ v : Nat,
       (ArithmosStd.try_from_u128 v = .error ⟨⟩ ↔ (u32MAX < v ∨ ArithmosStd.MAX < v)) ∧
       (v ≤ ArithmosStd.MAX → ArithmosStd.try_from_u128 v = ArithmosStd.new v)) ∧
     (∀ v : Nat,
       (ArithmosStd.try_from_usize v = .error ⟨⟩ ↔ (u32MAX < v ∨ ArithmosStd.MAX < v)) ∧
       (v ≤ ArithmosStd.MAX → ArithmosStd.try_from_usize v = ArithmosStd.new v)) ∧
     (∀ v : Int, -128 ≤ v → v < 128 →
       (ArithmosStd.try_from_i8 v = .error ⟨⟩ ↔
         (v < 0 ∨ (u32MAX : Int) < v ∨ (ArithmosStd.MAX : Int) < v)) ∧
       (0 ≤ v → v ≤ (ArithmosStd.MAX : Int) →
         ArithmosStd.try_from_i8 v = ArithmosStd.new v.toNat)) ∧
     (∀ v : Int, -32768 ≤ v → v < 32768 →
       (ArithmosStd.try_from_i16 v = .error ⟨⟩ ↔
         (v < 0 ∨ (u32MAX : Int) < v ∨ (ArithmosStd.MAX : Int) < v)) ∧
       (0 ≤ v → v ≤ (ArithmosStd.MAX : Int) →
         ArithmosStd.try_from_i16 v = ArithmosStd.new v.toNat)) ∧
     (∀ v : Int, -2147483648 ≤ v → v < 2147483648 →
       (ArithmosStd.try_from_i32 v = .error ⟨⟩ ↔
         (v < 0 ∨ (u32MAX : Int) < v ∨ (ArithmosStd.MAX : Int) < v)) ∧
       (0 ≤ v → v ≤ (ArithmosStd.MAX : Int) →
         ArithmosStd.try_from_i32 v = ArithmosStd.new v.toNat)) ∧
     (∀ v : Int, -9223372036854775808 ≤ v → v < 9223372036854775808 →
       (ArithmosStd.try_from_i64 v = .error ⟨⟩ ↔
         (v < 0 ∨ (u32MAX : Int) < v ∨ (ArithmosStd.MAX : Int) < v)) ∧
       (0 ≤ v → v ≤ (ArithmosStd.MAX : Int) →
         ArithmosStd.try_from_i64 v = ArithmosStd.new v.toNat)) ∧
     (∀ v : Int,
       (ArithmosStd.try_from_i128 v = .error ⟨⟩ ↔
         (v < 0 ∨ (u32MAX : Int) < v ∨ (ArithmosStd.MAX : Int) < v)) ∧
       (0 ≤ v → v ≤ (ArithmosStd.MAX : Int) →
         ArithmosStd.try_from_i128 v = ArithmosStd.new v.toNat))) ∧
    ((∀ v : Nat, v < 256 →
       (ArithmosExt.try_from_u8 v = .error ⟨⟩ ↔ ArithmosExt.MAX < v) ∧
       (v ≤ ArithmosExt.MAX → ArithmosExt.try_from_u8 v = ArithmosExt.new v)) ∧
     (∀ v : Nat, v < 65536 →
       (ArithmosExt.try_from_u16 v = .error ⟨⟩ ↔ ArithmosExt.MAX < v) ∧
       (v ≤ ArithmosExt.MAX → ArithmosExt.try_from_u16 v = ArithmosExt.new v)) ∧
     (∀ v : Nat, v < 4294967296 →
       (ArithmosExt.try_from_u32 v = .error ⟨⟩ ↔ ArithmosExt.MAX < v) ∧
       (v ≤ ArithmosExt.MAX → ArithmosExt.try_from_u32 v = ArithmosExt.new v)) ∧
     (∀ v : Nat,
       (ArithmosExt.try_from_u64 v = .error ⟨⟩ ↔ (u32MAX < v ∨ ArithmosExt.MAX < v)) ∧
       (v ≤ ArithmosExt.MAX → ArithmosExt.try_from_u64 v = ArithmosExt.new v)) ∧
     (∀ v : Nat,
       (ArithmosExt.try_from_u128 v = .error ⟨⟩ ↔ (u32MAX < v ∨ ArithmosExt.MAX < v)) ∧
       (v ≤ ArithmosExt.MAX → ArithmosExt.try_from_u128 v = ArithmosExt.new v)) ∧
     (∀ v : Nat,
       (ArithmosExt.try_from_usize v = .error ⟨⟩ ↔ (u32MAX < v ∨ ArithmosExt.MAX < v)) ∧
       (v ≤ ArithmosExt.MAX → ArithmosExt.try_from_usize v = ArithmosExt.new v)) ∧
     (∀ v : Int, -128 ≤ v → v < 128 →
       (ArithmosExt.try_from_i8 v = .error ⟨⟩ ↔
         (v < 0 ∨ (u32MAX : Int) < v ∨ (ArithmosExt.MAX : Int) < v)) ∧
       (0 ≤ v → v ≤ (ArithmosExt.MAX : Int) →
         ArithmosExt.try_from_i8 v = ArithmosExt.new v.toNat)) ∧
     (∀ v : Int, -32768 ≤ v → v < 32768 →
       (ArithmosExt.try_from_i16 v = .error ⟨⟩ ↔
         (v < 0 ∨ (u32MAX : Int) < v ∨ (ArithmosExt.MAX : Int) < v)) ∧
       (0 ≤ v → v ≤ (ArithmosExt.MAX : Int) →
         ArithmosExt.try_from_i16 v = ArithmosExt.new v.toNat)) ∧
     (∀ v : Int, -2147483648 ≤ v → v < 2147483648 →
       (ArithmosExt.try_from_i32 v = .error ⟨⟩ ↔
         (v < 0 ∨ (u32MAX : Int) < v ∨ (ArithmosExt.MAX : Int) < v)) ∧
       (0 ≤ v → v ≤ (ArithmosExt.MAX : Int) →
         ArithmosExt.try_from_i32 v = ArithmosExt.new v.toNat)) ∧
     (∀ v : Int, -9223372036854775808 ≤ v → v < 9223372036854775808 →
       (ArithmosExt.try_from_i64 v = .error ⟨⟩ ↔
         (v < 0 ∨ (u32MAX : Int) < v ∨ (ArithmosExt.MAX : Int) < v)) ∧
       (0 ≤ v → v ≤ (ArithmosExt.MAX : Int) →
         ArithmosExt.try_from_i64 v = ArithmosExt.new v.toNat)) ∧
     (∀ v : Int,
       (ArithmosExt.try_from_i128 v = .error ⟨⟩ ↔
         (v < 0 ∨ (u32MAX : Int) < v ∨ (ArithmosExt.MAX : Int) < v)) ∧
       (0 ≤ v → v ≤ (ArithmosExt.MAX : Int) →
         ArithmosExt.try_from_i128 v = ArithmosExt.new v.toNat))) ∧
    (∀ e1 e2 : OutOfRangeError, e1 = e2) :=
  ⟨⟨fun v _ => ⟨new_error_iff_std v, fun _ => rfl⟩,
    fun v _ => ⟨new_error_iff_std v, fun _ => rfl⟩,
    fun v _ => ⟨new_error_iff_std v, fun _ => rfl⟩,
    fun v => try_nat_guard_std v,
    fun v => try_nat_guard_std v,
    fun v => try_nat_guard_std v,
    fun v _ _ => try_int_guard_std v,
    fun v _ _ => try_int_guard_std v,
    fun v _ _ => try_int_guard_std v,
    fun v _ _ => try_int_guard_std v,
    fun v => try_int_guard_std v⟩,
   ⟨fun v _ => ⟨new_error_iff_ext v, fun _ => rfl⟩,
    fun v _ => ⟨new_error_iff_ext v, fun _ => rfl⟩,
    fun v _ => ⟨new_error_iff_ext v, fun _ => rfl⟩,
    fun v => try_nat_guard_ext v,
    fun v => try_nat_guard_ext v,
    fun v => try_nat_guard_ext v,
    fun v _ _ => try_int_guard_ext v,
    fun v _ _ => try_int_guard_ext v,
    fun v _ _ => try_int_guard_ext v,
    fun v _ _ => try_int_guard_ext v,
    fun v => try_int_guard_ext v⟩,
   fun e1 e2 => by cases e1; cases e2; rfl⟩

/-- C8 witness: the conversion contract evaluated at concrete inputs —
u8 at 42 (standard), u64 at 5000000000 (standard), i8 at -5 (extended). -/
theorem C8_try_from_conversions_witness :
    ((ArithmosStd.try_from_u8 42 = .error ⟨⟩ ↔ ArithmosStd.MAX < 42) ∧
     (42 ≤ ArithmosStd.MAX → ArithmosStd.try_from_u8 42 = ArithmosStd.new 42)) ∧
    ((ArithmosStd.try_from_u64 5000000000 = .error ⟨⟩ ↔
       (u32MAX < 5000000000 ∨ ArithmosStd.MAX < 5000000000)) ∧
     (5000000000 ≤ ArithmosStd.MAX →
       ArithmosStd.try_from_u64 5000000000 = ArithmosStd.new 5000000000)) ∧
    ((ArithmosExt.try_from_i8 (-5) = .error ⟨⟩ ↔
       ((-5 : Int) < 0 ∨ (u32MAX : Int) < (-5 : Int) ∨ (ArithmosExt.MAX : Int) < (-5 : Int))) ∧
     (0 ≤ (-5 : Int) → (-5 : Int) ≤ (ArithmosExt.MAX : Int) →
       ArithmosExt.try_from_i8 (-5) = ArithmosExt.new ((-5 : Int)).toNat)) :=
  ⟨C8_try_from_conversions.1.1 42 (by decide),
   C8_try_from_conversions.1.2.2.2.1 5000000000,
   C8_try_from_conversions.2.1.2.2.2.2.2.2.1 (-5) (by decide) (by decide)⟩
